import Mathlib

/-!
A shallow embedding of the `gomlx/bsplines` core (`bsplines.go`) in Lean 4.

Go `float64` values are modelled as rationals (`ℚ`), so every arithmetic
identity proved here is a statement about the exact real-number formulas the
code computes (floating-point rounding is not modelled).  Go panics are
modelled with the `Except Err` monad: `exceptions.Panicf` calls become
`Err.invalidArgument` / `Err.invalidState` and Go runtime panics
(out-of-range slice index, out-of-range slice bound) become `Err.outOfRange`.
Every slice read performed by the Go code goes through a bounds-checked
access (`goGetN` / `atIdx`), so a returned `.ok` value certifies that the Go
code performs no out-of-range access on the same input.
-/

namespace BSplines

/-- Failure modes of the Go code: `invalidArgument` / `invalidState` for the
`exceptions.Panicf` calls, `outOfRange` for Go runtime panics caused by an
out-of-range slice index or slice bound. -/
inductive Err where
  | invalidArgument
  | invalidState
  | outOfRange
deriving DecidableEq, Repr

/-- `ExtrapolationType` from the source: how a B-spline behaves outside the
knots.  `zero`, `constant`, `linear` model `ExtrapolateZero`,
`ExtrapolateConstant`, `ExtrapolateLinear`. -/
inductive ExtrapolationType where
  | zero
  | constant
  | linear
deriving DecidableEq, Repr

/-- The `BSpline` struct from the source, with `float64` slices as `List ℚ`.
`knotValueForControlPoint1` / `knotValueForControlPointM2` are the cached
knot (x-coordinate) values for `controlPoints[1]` and `controlPoints[-1 - 1]`
used by linear extrapolation. -/
structure BSpline where
  degree : ℕ
  expandedKnots : List ℚ
  controlPoints : List ℚ
  extrapolation : ExtrapolationType
  knotValueForControlPoint1 : ℚ
  knotValueForControlPointM2 : ℚ
deriving DecidableEq, Repr

/-- Bounds-checked slice read `slice[idx]` for a non-negative index, as Go's
`[]` operator: out of range is a runtime panic (`Err.outOfRange`). -/
def goGetN (l : List ℚ) (i : ℕ) : Except Err ℚ :=
  if i < l.length then .ok (l.getD i 0) else .error .outOfRange

/-- The `at` helper from the source (`at` is a Lean keyword, hence `atIdx`):
a negative index counts from the end of the slice, then the read is
bounds-checked like Go's `[]` operator. -/
def atIdx (l : List ℚ) (i : ℤ) : Except Err ℚ :=
  let j := if i < 0 then (l.length : ℤ) + i else i
  if 0 ≤ j ∧ j < (l.length : ℤ) then .ok (l.getD j.toNat 0) else .error .outOfRange

/-- `Knots`: the Go slice expression `b.expandedKnots[b.degree : len(b.expandedKnots)-b.degree]`. -/
def Knots (b : BSpline) : List ℚ :=
  (b.expandedKnots.drop b.degree).take (b.expandedKnots.length - 2 * b.degree)

/-- `NumControlPoints`: `len(b.Knots()) + b.degree - 1`. -/
def NumControlPoints (b : BSpline) : ℕ :=
  (Knots b).length + b.degree - 1

/-- `ControlPointsX` from the source.  For each control point index `ii`:
the first entry is `expandedKnots[0]`; an entry whose index would equal
`len(expandedKnots)-1` is `expandedKnots[len-1]`; every other entry is the
sum of the `degree` expanded knots starting at offset `ii+1`, divided by
`degree`.  The Go loop reads `b.expandedKnots[ii+jj+1]` unchecked; for every
spline reachable through `New` these reads are in bounds (proved below), so
the total `getD` model coincides with the code.  Note the division is `0/0`
when `degree = 0` (Go: `NaN`; here `0`, since `ℚ` division by zero is `0`). -/
def ControlPointsX (b : BSpline) : List ℚ :=
  (List.range (NumControlPoints b)).map fun ii =>
    if ii = 0 then b.expandedKnots.getD 0 0
    else if ii = b.expandedKnots.length - 1 then
      b.expandedKnots.getD (b.expandedKnots.length - 1) 0
    else
      (((List.range b.degree).map fun jj => b.expandedKnots.getD (ii + jj + 1) 0).sum)
        / (b.degree : ℚ)

/-- The expanded knot vector built by `New`: `degree` copies of `knots[0]`,
the original knots, then `degree` copies of `knots[len-1]` (the net effect of
the clamping loop followed by the `copy` in the source). -/
def expandKnots (d : ℕ) (knots : List ℚ) : List ℚ :=
  List.replicate d (knots.getD 0 0) ++ knots ++
    List.replicate d (knots.getD (knots.length - 1) 0)

/-- The spline value produced by a successful `New d knots` call: expanded
knots as in `expandKnots`, no control points, `constant` extrapolation, and
the two cached x-coordinates read from `ControlPointsX` at index `1` and at
index `-2` (i.e. `length - 2`). -/
def mkSpline (d : ℕ) (knots : List ℚ) : BSpline :=
  let b0 : BSpline := ⟨d, expandKnots d knots, [], .constant, 0, 0⟩
  let cx := ControlPointsX b0
  { b0 with
    knotValueForControlPoint1 := cx.getD 1 0
    knotValueForControlPointM2 := cx.getD (cx.length - 2) 0 }

/-- The sorted check of `New`, translated from
`slices.IsSortedFunc(knots, cmp)` with `cmp a b = if a < b then -1 else 1`:
`IsSortedFunc` reports unsorted exactly when `cmp(knots[i], knots[i-1]) < 0`
for some `i`, i.e. when some adjacent pair satisfies `knots[i] < knots[i-1]`.
Note this accepts repeated values — `cmp` returns `1` on an equal pair,
which `IsSortedFunc` does not treat as out of order — despite the comment in
the source ("We want repeated numbers to fail"). -/
def goIsSorted : List ℚ → Bool
  | a :: b :: rest => if b < a then false else goIsSorted (b :: rest)
  | _ => true

/-- The check of `New` accepts a knot list iff it is non-decreasing (not:
strictly increasing). -/
theorem goIsSorted_iff (l : List ℚ) :
    goIsSorted l = true ↔ List.Chain' (fun a b => a ≤ b) l := by
  induction l with
  | nil => simp [goIsSorted]
  | cons a t ih =>
    cases t with
    | nil => simp [goIsSorted]
    | cons b rest =>
      rw [goIsSorted, List.chain'_cons]
      split_ifs with h
      · simp [not_le.mpr h]
      · simp [ih, not_lt.mp h]

theorem goIsSorted_eq_false {l : List ℚ} (h : ¬ List.Chain' (fun a b => a ≤ b) l) :
    goIsSorted l = false := by
  cases hgs : goIsSorted l
  · rfl
  · exact absurd ((goIsSorted_iff l).mp hgs) h

/-- `New` from the source.  The degree is an `ℤ` because the Go parameter is
an `int`.  For `degree < 0` the Go code panics with a slice-bounds runtime
panic at the `copy` step (`b.expandedKnots[degree:...]` with a negative
bound); this is modelled as `Err.outOfRange`. -/
def New (degree : ℤ) (knots : List ℚ) : Except Err BSpline :=
  if knots.length < 2 then .error .invalidArgument
  else if ¬ goIsSorted knots then .error .invalidArgument
  else if degree < 0 then .error .outOfRange
  else
    let d := degree.toNat
    let b0 : BSpline := ⟨d, expandKnots d knots, [], .constant, 0, 0⟩
    let cx := ControlPointsX b0
    do
      let kv1 ← goGetN cx 1
      let kvM2 ← atIdx cx (-2)
      pure { b0 with
              knotValueForControlPoint1 := kv1
              knotValueForControlPointM2 := kvM2 }

/-- `NewRegular` from the source: checks `numControlPoints ≥ degree + 1`,
builds `numKnots = numControlPoints - degree + 1` knots `i / (numKnots-1)`
evenly spaced over `[0, 1]`, and delegates to `New`. -/
def NewRegular (degree numControlPoints : ℤ) : Except Err BSpline :=
  if numControlPoints < degree + 1 then .error .invalidArgument
  else
    let numKnots := numControlPoints - degree + 1
    let knots := (List.range numKnots.toNat).map
      fun ii : ℕ => (ii : ℚ) / (((numKnots - 1 : ℤ) : ℚ))
    New degree knots

/-- `WithControlPoints` from the source: requires exactly
`numKnots + degree - 1` control points, then replaces them. -/
def WithControlPoints (b : BSpline) (controlPoints : List ℚ) : Except Err BSpline :=
  let numKnots := b.expandedKnots.length - 2 * b.degree
  if controlPoints.length ≠ numKnots + b.degree - 1 then .error .invalidArgument
  else .ok { b with controlPoints := controlPoints }

/-- `WithExtrapolation` from the source. -/
def WithExtrapolation (b : BSpline) (e : ExtrapolationType) : BSpline :=
  { b with extrapolation := e }

/-- `BasisFunction` from the source (Cox-de Boor recursion over the expanded
knots).  The Go `degree` parameter is an `int` but the recursion only
terminates for non-negative degrees, so it is an `ℕ` here.  In the base case
Go's `&&` short-circuits: `expandedKnots[i+1]` is only read when
`expandedKnots[i] ≤ x` holds, which the nested `if` reproduces. -/
def BasisFunction (b : BSpline) : ℕ → ℕ → ℚ → Except Err ℚ
  | i, 0, x => do
    let ti ← goGetN b.expandedKnots i
    if ti ≤ x then do
      let ti1 ← goGetN b.expandedKnots (i + 1)
      pure (if x < ti1 then (1 : ℚ) else 0)
    else
      pure 0
  | i, p + 1, x => do
    let ti ← goGetN b.expandedKnots i
    let tid ← goGetN b.expandedKnots (i + (p + 1))
    let left ← if tid ≠ ti then do
        let r ← BasisFunction b i p x
        pure ((x - ti) / (tid - ti) * r)
      else
        pure (0 : ℚ)
    let ti1 ← goGetN b.expandedKnots (i + 1)
    let tid1 ← goGetN b.expandedKnots (i + (p + 1) + 1)
    let right ← if tid1 ≠ ti1 then do
        let r ← BasisFunction b (i + 1) p x
        pure ((tid1 - x) / (tid1 - ti1) * r)
      else
        pure (0 : ℚ)
    pure (left + right)

/-- `extrapolate` from the source: the value of the B-spline outside the
knots, by extrapolation mode. -/
def extrapolate (b : BSpline) (x : ℚ) : Except Err ℚ :=
  match b.extrapolation with
  | .zero => .ok 0
  | .constant => do
    let k0 ← goGetN b.expandedKnots 0
    if x < k0 then
      goGetN b.controlPoints 0
    else
      goGetN b.controlPoints (b.controlPoints.length - 1)
  | .linear => do
    let k0 ← goGetN b.expandedKnots 0
    if x < k0 then do
      let c1 ← goGetN b.controlPoints 1
      let c0 ← goGetN b.controlPoints 0
      let linearCoef := (c1 - c0) / (b.knotValueForControlPoint1 - k0)
      pure (c0 + (x - k0) * linearCoef)
    else do
      let cm1 ← atIdx b.controlPoints (-1)
      let cm2 ← atIdx b.controlPoints (-2)
      let km1 ← atIdx b.expandedKnots (-1)
      let linearCoef := (cm1 - cm2) / (km1 - b.knotValueForControlPointM2)
      pure (cm1 + (x - km1) * linearCoef)

/-- The accumulation loop of `Evaluate`:
`for controlPointIdx, controlPoint := range b.controlPoints { result += controlPoint * basis }`,
with the list of `(index, controlPoint)` pairs produced by `List.enum`. -/
def evalLoop (b : BSpline) (x : ℚ) : List (ℕ × ℚ) → ℚ → Except Err ℚ
  | [], acc => .ok acc
  | (i, c) :: rest, acc => do
    let basis ← BasisFunction b i b.degree x
    evalLoop b x rest (acc + c * basis)

/-- `Evaluate` from the source: requires control points
(`Err.invalidState` otherwise), extrapolates for
`x < expandedKnots[0]` or `x ≥ expandedKnots[len-1]`, and otherwise sums
`controlPoint * BasisFunction(idx, degree, x)` over all control points. -/
def Evaluate (b : BSpline) (x : ℚ) : Except Err ℚ :=
  if b.controlPoints.length = 0 then .error .invalidState
  else do
    let k0 ← goGetN b.expandedKnots 0
    let kLast ← goGetN b.expandedKnots (b.expandedKnots.length - 1)
    if x < k0 ∨ x ≥ kLast then
      extrapolate b x
    else
      evalLoop b x b.controlPoints.enum 0

/-- The loop of `Derivative` building the new control points
`float64(b.degree) * (control[ii+1] - control[ii]) / (expandedKnots[ii+1+degree] - expandedKnots[ii+1])`
for each index `ii` of the list. -/
def derivControlLoop (b : BSpline) : List ℕ → Except Err (List ℚ)
  | [] => .ok []
  | ii :: rest => do
    let c1 ← goGetN b.controlPoints (ii + 1)
    let c0 ← goGetN b.controlPoints ii
    let k1 ← goGetN b.expandedKnots (ii + 1 + b.degree)
    let k0 ← goGetN b.expandedKnots (ii + 1)
    let v := (b.degree : ℚ) * (c1 - c0) / (k1 - k0)
    let rest' ← derivControlLoop b rest
    pure (v :: rest')

/-- The extrapolation mode of the derivative spline, from the `switch` in
`Derivative`: zero except when the original extrapolation was linear, in
which case constant. -/
def derivedExtrapolation : ExtrapolationType → ExtrapolationType
  | .zero => .zero
  | .constant => .zero
  | .linear => .constant

/-- `Derivative` from the source: builds the new control points over
`range (NumControlPoints b - 1)`, then
`New(b.degree - 1, b.Knots()).WithExtrapolation(...).WithControlPoints(newControl)`.
Note the source has no control-points-set check: with unset control points
the loop body's `control[ii+1]` read is a runtime out-of-range panic. -/
def Derivative (b : BSpline) : Except Err BSpline := do
  let knots := Knots b
  let newControl ← derivControlLoop b (List.range (NumControlPoints b - 1))
  let nb ← New ((b.degree : ℤ) - 1) knots
  let nb2 := WithExtrapolation nb (derivedExtrapolation b.extrapolation)
  WithControlPoints nb2 newControl

/-! ### Specification-side definitions

These definitions are written from the specification's words (not from the
code); the theorems below relate the code translation to them. -/

/-- The Cox-de Boor recursion exactly as the specification words it: for
`p = 0` the half-open interval indicator `t[i] ≤ x < t[i+1]`; for `p > 0`
the sum `left + right` with each side zero unless its knot-difference
denominator is nonzero. -/
def coxDeBoorSpec (t : List ℚ) : ℕ → ℕ → ℚ → ℚ
  | i, 0, x => if t.getD i 0 ≤ x ∧ x < t.getD (i + 1) 0 then 1 else 0
  | i, p + 1, x =>
    (if t.getD (i + (p + 1)) 0 ≠ t.getD i 0 then
        (x - t.getD i 0) / (t.getD (i + (p + 1)) 0 - t.getD i 0) * coxDeBoorSpec t i p x
      else 0)
    + (if t.getD (i + (p + 1) + 1) 0 ≠ t.getD (i + 1) 0 then
        (t.getD (i + (p + 1) + 1) 0 - x) / (t.getD (i + (p + 1) + 1) 0 - t.getD (i + 1) 0)
          * coxDeBoorSpec t (i + 1) p x
      else 0)

/-- The in-domain evaluation result as the specification words it: the sum
over all control points `i` of `controlPoints[i] * BasisFunction(i, degree, x)`. -/
def weightedSumSpec (b : BSpline) (x : ℚ) : ℚ :=
  ((List.range b.controlPoints.length).map fun i =>
    b.controlPoints.getD i 0 * coxDeBoorSpec b.expandedKnots i b.degree x).sum

/-- The extrapolation value as the specification words it, per mode.  The
linear slopes use the two x-coordinate scalars cached at construction. -/
def extrapolateSpec (b : BSpline) (x : ℚ) : ℚ :=
  match b.extrapolation with
  | .zero => 0
  | .constant =>
    if x < b.expandedKnots.getD 0 0 then b.controlPoints.getD 0 0
    else b.controlPoints.getD (b.controlPoints.length - 1) 0
  | .linear =>
    if x < b.expandedKnots.getD 0 0 then
      b.controlPoints.getD 0 0 +
        (x - b.expandedKnots.getD 0 0) *
          (b.controlPoints.getD 1 0 - b.controlPoints.getD 0 0) /
          (b.knotValueForControlPoint1 - b.expandedKnots.getD 0 0)
    else
      b.controlPoints.getD (b.controlPoints.length - 1) 0 +
        (x - b.expandedKnots.getD (b.expandedKnots.length - 1) 0) *
          (b.controlPoints.getD (b.controlPoints.length - 1) 0
            - b.controlPoints.getD (b.controlPoints.length - 2) 0) /
          (b.expandedKnots.getD (b.expandedKnots.length - 1) 0
            - b.knotValueForControlPointM2)

/-- The derivative control points as the specification words them:
`degree * (controlPoints[i+1] - controlPoints[i]) / (expandedKnots[i+1+degree] - expandedKnots[i+1])`. -/
def derivControlSpec (b : BSpline) : List ℚ :=
  (List.range (NumControlPoints b - 1)).map fun ii =>
    (b.degree : ℚ) * (b.controlPoints.getD (ii + 1) 0 - b.controlPoints.getD ii 0) /
      (b.expandedKnots.getD (ii + 1 + b.degree) 0 - b.expandedKnots.getD (ii + 1) 0)

/-! ### Basic lemmas for the `Except` monad and the checked reads -/

@[simp]
theorem ok_bind {α β : Type} (a : α) (f : α → Except Err β) :
    (Except.ok a : Except Err α) >>= f = f a := rfl

@[simp]
theorem error_bind {α β : Type} (e : Err) (f : α → Except Err β) :
    (Except.error e : Except Err α) >>= f = Except.error e := rfl

@[simp]
theorem pure_eq_ok {α : Type} (a : α) : (pure a : Except Err α) = Except.ok a := rfl

theorem goGetN_lt (l : List ℚ) (i : ℕ) (h : i < l.length) :
    goGetN l i = .ok (l.getD i 0) := by
  simp [goGetN, h]

theorem goGetN_ge (l : List ℚ) (i : ℕ) (h : l.length ≤ i) :
    goGetN l i = .error .outOfRange := by
  simp [goGetN]
  omega

@[simp]
theorem exceptIteBind {α β : Type} (c : Prop) [Decidable c] (a b : Except Err α)
    (f : α → Except Err β) :
    ((if c then a else b) >>= f) = if c then a >>= f else b >>= f := by
  split_ifs <;> rfl

theorem atIdx_neg_one (l : List ℚ) (h : 1 ≤ l.length) :
    atIdx l (-1) = .ok (l.getD (l.length - 1) 0) := by
  simp only [atIdx]
  split_ifs with hneg hin
  · rw [show ((l.length : ℤ) + -1).toNat = l.length - 1 from by omega]
  · exact absurd ⟨by omega, by omega⟩ hin
  · exact absurd (by omega) hneg
  · exact absurd (by omega) hneg

theorem atIdx_neg_two (l : List ℚ) (h : 2 ≤ l.length) :
    atIdx l (-2) = .ok (l.getD (l.length - 2) 0) := by
  simp only [atIdx]
  split_ifs with hneg hin
  · rw [show ((l.length : ℤ) + -2).toNat = l.length - 2 from by omega]
  · exact absurd ⟨by omega, by omega⟩ hin
  · exact absurd (by omega) hneg
  · exact absurd (by omega) hneg

/-! ### `BasisFunction` refines the Cox-de Boor recursion -/

/-- When every knot index it touches is in bounds, the code's recursive
`BasisFunction` computes exactly the Cox-de Boor value. -/
theorem basisFunction_ok (b : BSpline) (p i : ℕ) (x : ℚ)
    (h : i + p + 1 < b.expandedKnots.length) :
    BasisFunction b i p x = .ok (coxDeBoorSpec b.expandedKnots i p x) := by
  induction p generalizing i with
  | zero =>
    have h0 : i < b.expandedKnots.length := by omega
    have h1 : i + 1 < b.expandedKnots.length := by omega
    simp only [BasisFunction, coxDeBoorSpec, goGetN_lt _ _ h0, goGetN_lt _ _ h1, ok_bind,
      pure_eq_ok]
    split_ifs <;> first | rfl | tauto
  | succ p ih =>
    have h0 : i < b.expandedKnots.length := by omega
    have hd : i + (p + 1) < b.expandedKnots.length := by omega
    have h1 : i + 1 < b.expandedKnots.length := by omega
    have hd1 : i + (p + 1) + 1 < b.expandedKnots.length := by omega
    have hrl : i + p + 1 < b.expandedKnots.length := by omega
    have hrr : (i + 1) + p + 1 < b.expandedKnots.length := by omega
    simp only [BasisFunction, coxDeBoorSpec, goGetN_lt _ _ h0, goGetN_lt _ _ hd,
      goGetN_lt _ _ h1, goGetN_lt _ _ hd1, ok_bind, pure_eq_ok, exceptIteBind,
      ih _ hrl, ih _ hrr]
    split_ifs <;> rfl

/-! ### Structure of a successfully constructed spline -/

theorem getD_replicate_eq (n : ℕ) (a : ℚ) (i : ℕ) (h : i < n) :
    (List.replicate n a).getD i 0 = a := by
  rw [List.getD_eq_getElem _ _ (by simpa using h)]
  simp

theorem getD_map_range (n : ℕ) (f : ℕ → ℚ) (i : ℕ) (h : i < n) :
    ((List.range n).map f).getD i 0 = f i := by
  rw [List.getD_eq_getElem _ _ (by simpa using h)]
  simp

theorem expandKnots_length (d : ℕ) (knots : List ℚ) :
    (expandKnots d knots).length = knots.length + 2 * d := by
  simp [expandKnots]
  omega

theorem expandKnots_getD_lo (d : ℕ) (ks : List ℚ) (i : ℕ) (h : i < d) :
    (expandKnots d ks).getD i 0 = ks.getD 0 0 := by
  unfold expandKnots
  rw [List.getD_append _ _ _ _ (by simp; omega), List.getD_append _ _ _ _ (by simp [h]),
    getD_replicate_eq _ _ _ h]

theorem expandKnots_getD_mid (d : ℕ) (ks : List ℚ) (i : ℕ) (h : i < ks.length) :
    (expandKnots d ks).getD (d + i) 0 = ks.getD i 0 := by
  unfold expandKnots
  rw [List.getD_append _ _ _ _ (by simp; omega),
    List.getD_append_right _ _ _ _ (by simp), List.length_replicate]
  congr 1
  omega

theorem expandKnots_getD_hi (d : ℕ) (ks : List ℚ) (i : ℕ)
    (h1 : 1 ≤ ks.length) (h2 : ks.length - 1 + d ≤ i) (h3 : i < ks.length + 2 * d) :
    (expandKnots d ks).getD i 0 = ks.getD (ks.length - 1) 0 := by
  by_cases hmid : i < d + ks.length
  · rw [show i = d + (i - d) from by omega, expandKnots_getD_mid _ _ _ (by omega)]
    congr 1
    omega
  · unfold expandKnots
    rw [List.getD_append_right _ _ _ _ (by simp; omega)]
    rw [getD_replicate_eq _ _ _ (by simp; omega)]

theorem Knots_expand (d : ℕ) (knots : List ℚ) (b : BSpline)
    (hdeg : b.degree = d) (hek : b.expandedKnots = expandKnots d knots) :
    Knots b = knots := by
  unfold Knots
  rw [hdeg, hek, expandKnots_length,
    show knots.length + 2 * d - 2 * d = knots.length from by omega]
  unfold expandKnots
  rw [List.append_assoc, List.drop_left' (List.length_replicate d _), List.take_left' rfl]

@[simp]
theorem mkSpline_degree (d : ℕ) (ks : List ℚ) : (mkSpline d ks).degree = d := rfl

@[simp]
theorem mkSpline_expandedKnots (d : ℕ) (ks : List ℚ) :
    (mkSpline d ks).expandedKnots = expandKnots d ks := rfl

@[simp]
theorem mkSpline_controlPoints (d : ℕ) (ks : List ℚ) : (mkSpline d ks).controlPoints = [] := rfl

@[simp]
theorem mkSpline_extrapolation (d : ℕ) (ks : List ℚ) :
    (mkSpline d ks).extrapolation = .constant := rfl

theorem controlPointsX_congr (b b' : BSpline) (h1 : b.degree = b'.degree)
    (h2 : b.expandedKnots = b'.expandedKnots) : ControlPointsX b = ControlPointsX b' := by
  simp [ControlPointsX, NumControlPoints, Knots, h1, h2]

theorem controlPointsX_length (b : BSpline) :
    (ControlPointsX b).length = NumControlPoints b := by
  simp [ControlPointsX]

theorem numControlPoints_expand (d : ℕ) (knots : List ℚ) (b : BSpline)
    (hdeg : b.degree = d) (hek : b.expandedKnots = expandKnots d knots) :
    NumControlPoints b = knots.length + d - 1 := by
  unfold NumControlPoints
  rw [Knots_expand d knots b hdeg hek, hdeg]

theorem mkSpline_kv1 (d : ℕ) (ks : List ℚ) :
    (mkSpline d ks).knotValueForControlPoint1 = (ControlPointsX (mkSpline d ks)).getD 1 0 := by
  rw [controlPointsX_congr (mkSpline d ks) ⟨d, expandKnots d ks, [], .constant, 0, 0⟩ rfl rfl]
  rfl

theorem mkSpline_kvM2 (d : ℕ) (ks : List ℚ) :
    (mkSpline d ks).knotValueForControlPointM2 =
      (ControlPointsX (mkSpline d ks)).getD ((ControlPointsX (mkSpline d ks)).length - 2) 0 := by
  rw [controlPointsX_congr (mkSpline d ks) ⟨d, expandKnots d ks, [], .constant, 0, 0⟩ rfl rfl]
  rfl

/-- A successful `New`: with at least 2 knots, a non-decreasing knot list
(the buggy check!), a non-negative degree and at least 2 control points, the
constructor returns exactly `mkSpline`. -/
theorem new_ok (d : ℤ) (knots : List ℚ) (h2 : 2 ≤ knots.length)
    (hs : List.Chain' (fun a b => a ≤ b) knots) (hd : 0 ≤ d)
    (hn : 3 ≤ knots.length + d.toNat) :
    New d knots = .ok (mkSpline d.toNat knots) := by
  have hlen : (ControlPointsX (⟨d.toNat, expandKnots d.toNat knots, [], .constant, 0, 0⟩ :
      BSpline)).length = knots.length + d.toNat - 1 := by
    rw [controlPointsX_length, numControlPoints_expand d.toNat knots _ rfl rfl]
  simp only [New]
  rw [if_neg (by omega), if_neg (by simp [(goIsSorted_iff knots).mpr hs]), if_neg (by omega)]
  rw [goGetN_lt _ _ (by rw [hlen]; omega), atIdx_neg_two _ (by rw [hlen]; omega),
    ok_bind, ok_bind, pure_eq_ok]
  rfl

/-- Inversion of a successful `New`. -/
theorem new_ok_inv {d : ℤ} {knots : List ℚ} {b : BSpline} (h : New d knots = .ok b) :
    2 ≤ knots.length ∧ List.Chain' (fun a b => a ≤ b) knots ∧ 0 ≤ d ∧
      3 ≤ knots.length + d.toNat ∧ b = mkSpline d.toNat knots := by
  by_cases hl : knots.length < 2
  · rw [New, if_pos hl] at h
    cases h
  by_cases hsrt : List.Chain' (fun a b => a ≤ b) knots
  case neg =>
    rw [New, if_neg hl, if_pos (by simp [goIsSorted_eq_false hsrt])] at h
    cases h
  by_cases hd : d < 0
  · rw [New, if_neg hl, if_neg (by simp [(goIsSorted_iff knots).mpr hsrt]), if_pos hd] at h
    cases h
  by_cases hn : 3 ≤ knots.length + d.toNat
  · rw [new_ok d knots (by omega) hsrt (by omega) hn] at h
    exact ⟨by omega, hsrt, by omega, hn, (Except.ok.inj h).symm⟩
  · have hlen : (ControlPointsX (⟨d.toNat, expandKnots d.toNat knots, [], .constant, 0, 0⟩ :
        BSpline)).length = knots.length + d.toNat - 1 := by
      rw [controlPointsX_length, numControlPoints_expand d.toNat knots _ rfl rfl]
    have hle : (ControlPointsX (⟨d.toNat, expandKnots d.toNat knots, [], .constant, 0, 0⟩ :
        BSpline)).length ≤ 1 := by
      rw [hlen]; omega
    rw [New, if_neg hl, if_neg (by simp [(goIsSorted_iff knots).mpr hsrt]), if_neg hd] at h
    simp only [goGetN_ge _ _ hle, error_bind] at h
    cases h

theorem withControlPoints_ok {b : BSpline} {cps : List ℚ}
    (h : cps.length = b.expandedKnots.length - 2 * b.degree + b.degree - 1) :
    WithControlPoints b cps = .ok { b with controlPoints := cps } := by
  simp [WithControlPoints, h]

theorem withControlPoints_ok_inv {b b' : BSpline} {cps : List ℚ}
    (h : WithControlPoints b cps = .ok b') :
    cps.length = b.expandedKnots.length - 2 * b.degree + b.degree - 1 ∧
      b' = { b with controlPoints := cps } := by
  by_cases hl : cps.length = b.expandedKnots.length - 2 * b.degree + b.degree - 1
  · rw [withControlPoints_ok hl] at h
    exact ⟨hl, (Except.ok.inj h).symm⟩
  · rw [WithControlPoints, if_pos hl] at h
    cases h

/-! ### Evaluation machinery -/

/-- The in-domain sum, accumulated from control-point index `k` on. -/
def sumFrom (b : BSpline) (x : ℚ) : ℕ → List ℚ → ℚ
  | _, [] => 0
  | k, c :: cs => c * coxDeBoorSpec b.expandedKnots k b.degree x + sumFrom b x (k + 1) cs

theorem evalLoop_ok (b : BSpline) (x : ℚ) (cs : List ℚ) (k : ℕ) (acc : ℚ)
    (hb : ∀ j, j < cs.length → k + j + b.degree + 1 < b.expandedKnots.length) :
    evalLoop b x (List.enumFrom k cs) acc = .ok (acc + sumFrom b x k cs) := by
  induction cs generalizing k acc with
  | nil => simp [evalLoop, sumFrom, List.enumFrom]
  | cons c cs ih =>
    have h0 := hb 0 (by simp)
    rw [List.enumFrom]
    simp only [evalLoop]
    rw [basisFunction_ok b b.degree k x (by omega), ok_bind,
      ih (k + 1) _ (fun j hj => by have := hb (j + 1) (by simp; omega); omega)]
    rw [sumFrom]
    ring_nf

theorem sumFrom_eq (b : BSpline) (x : ℚ) (cs : List ℚ) (k : ℕ) :
    sumFrom b x k cs = ((List.range cs.length).map fun j =>
      cs.getD j 0 * coxDeBoorSpec b.expandedKnots (k + j) b.degree x).sum := by
  induction cs generalizing k with
  | nil => simp [sumFrom]
  | cons c cs ih =>
    rw [sumFrom, ih (k + 1), List.length_cons, List.range_succ_eq_map, List.map_cons,
      List.sum_cons, List.map_map]
    congr 1
    congr 1
    apply List.map_congr_left
    intro j _
    have harg : k + 1 + j = k + (j + 1) := by omega
    simp [Function.comp, harg]

theorem extrapolate_ok (b : BSpline) (x : ℚ)
    (hc : 2 ≤ b.controlPoints.length) (he : 1 ≤ b.expandedKnots.length) :
    extrapolate b x = .ok (extrapolateSpec b x) := by
  have hek0 : goGetN b.expandedKnots 0 = .ok (b.expandedKnots.getD 0 0) :=
    goGetN_lt _ _ (by omega)
  have hc0 : goGetN b.controlPoints 0 = .ok (b.controlPoints.getD 0 0) :=
    goGetN_lt _ _ (by omega)
  have hc1 : goGetN b.controlPoints 1 = .ok (b.controlPoints.getD 1 0) :=
    goGetN_lt _ _ (by omega)
  have hcl : goGetN b.controlPoints (b.controlPoints.length - 1) =
      .ok (b.controlPoints.getD (b.controlPoints.length - 1) 0) :=
    goGetN_lt _ _ (by omega)
  have ha1 := atIdx_neg_one b.controlPoints (by omega)
  have ha2 := atIdx_neg_two b.controlPoints (by omega)
  have hae := atIdx_neg_one b.expandedKnots (by omega)
  unfold extrapolate extrapolateSpec
  cases hE : b.extrapolation
  case zero => rfl
  case constant =>
    simp only [hek0, hc0, hcl, ok_bind]
    split_ifs <;> rfl
  case linear =>
    simp only [hek0, hc0, hc1, ha1, ha2, hae, ok_bind, pure_eq_ok]
    split_ifs
    · congr 1
      ring
    · congr 1
      ring

/-- In-domain evaluation computes the weighted Cox-de Boor sum. -/
theorem evaluate_in_domain (b : BSpline) (x : ℚ)
    (hne : b.controlPoints.length ≠ 0)
    (hb : b.controlPoints.length + b.degree + 1 ≤ b.expandedKnots.length)
    (hlo : b.expandedKnots.getD 0 0 ≤ x)
    (hhi : x < b.expandedKnots.getD (b.expandedKnots.length - 1) 0) :
    Evaluate b x = .ok (weightedSumSpec b x) := by
  have hlen : 1 ≤ b.expandedKnots.length := by omega
  rw [Evaluate, if_neg hne]
  rw [goGetN_lt _ _ (by omega), ok_bind, goGetN_lt _ _ (by omega), ok_bind]
  rw [if_neg (by push_neg; exact ⟨hlo, hhi⟩)]
  rw [show b.controlPoints.enum = List.enumFrom 0 b.controlPoints from rfl]
  rw [evalLoop_ok b x b.controlPoints 0 0 (fun j hj => by omega)]
  rw [zero_add, sumFrom_eq]
  unfold weightedSumSpec
  simp

/-- Outside the half-open domain, `Evaluate` delegates to `extrapolate`. -/
theorem evaluate_out (b : BSpline) (x : ℚ)
    (hne : b.controlPoints.length ≠ 0)
    (he : 1 ≤ b.expandedKnots.length)
    (hout : x < b.expandedKnots.getD 0 0 ∨
      b.expandedKnots.getD (b.expandedKnots.length - 1) 0 ≤ x) :
    Evaluate b x = extrapolate b x := by
  rw [Evaluate, if_neg hne]
  rw [goGetN_lt _ _ (by omega), ok_bind, goGetN_lt _ _ (by omega), ok_bind]
  rw [if_pos (by simpa [ge_iff_le] using hout)]

/-! ### Constructed splines -/

/-- Facts about a spline built by the method chain
`New(d, knots).WithExtrapolation(e).WithControlPoints(cps)` (taking `e` to be
the default `constant` covers the chain without `WithExtrapolation`, since
`WithExtrapolation b b.extrapolation = b`). -/
theorem constructed_facts {d : ℤ} {knots cps : List ℚ} {e : ExtrapolationType} {b0 b : BSpline}
    (hN : New d knots = .ok b0) (hW : WithControlPoints (WithExtrapolation b0 e) cps = .ok b) :
    b = { mkSpline d.toNat knots with extrapolation := e, controlPoints := cps } ∧
    cps.length = knots.length + d.toNat - 1 ∧
    2 ≤ knots.length ∧ 0 ≤ d ∧ 3 ≤ knots.length + d.toNat ∧
    List.Chain' (fun a b => a ≤ b) knots := by
  obtain ⟨h2, hs, hd, h3, hb0⟩ := new_ok_inv hN
  obtain ⟨hlen, hb⟩ := withControlPoints_ok_inv hW
  subst hb0
  subst hb
  refine ⟨rfl, ?_, h2, hd, h3, hs⟩
  rw [hlen]
  simp only [WithExtrapolation, mkSpline_degree, mkSpline_expandedKnots]
  rw [expandKnots_length]
  omega

theorem derivControlLoop_ok (b : BSpline) (idxs : List ℕ)
    (hb : ∀ ii ∈ idxs, ii + 1 < b.controlPoints.length ∧
      ii + 1 + b.degree < b.expandedKnots.length) :
    derivControlLoop b idxs = .ok (idxs.map fun ii =>
      (b.degree : ℚ) * (b.controlPoints.getD (ii + 1) 0 - b.controlPoints.getD ii 0) /
        (b.expandedKnots.getD (ii + 1 + b.degree) 0 - b.expandedKnots.getD (ii + 1) 0)) := by
  induction idxs with
  | nil => rfl
  | cons ii rest ih =>
    obtain ⟨hc, hk⟩ := hb ii (by simp)
    simp only [derivControlLoop, goGetN_lt _ _ hc,
      goGetN_lt _ _ (show ii < b.controlPoints.length from by omega),
      goGetN_lt _ _ hk,
      goGetN_lt _ _ (show ii + 1 < b.expandedKnots.length from by omega),
      ih (fun i hi => hb i (by simp [hi])), ok_bind, pure_eq_ok, List.map_cons]

/-- The derivative of a constructed spline of degree at least 1 with at
least 3 control points: a new spline over the same knots, one degree lower,
with the transformed control points and the derived extrapolation mode. -/
theorem derivative_ok {d : ℤ} {knots cps : List ℚ} {e : ExtrapolationType} {b0 b : BSpline}
    (hN : New d knots = .ok b0) (hW : WithControlPoints (WithExtrapolation b0 e) cps = .ok b)
    (hd1 : 1 ≤ d) (hm : 4 ≤ knots.length + d.toNat) :
    Derivative b = .ok { mkSpline (d.toNat - 1) knots with
      extrapolation := derivedExtrapolation e, controlPoints := derivControlSpec b } := by
  obtain ⟨hb, hcl, h2, hd0, h3, hs⟩ := constructed_facts hN hW
  have hdeg : b.degree = d.toNat := by rw [hb]; try rfl
  have hek : b.expandedKnots = expandKnots d.toNat knots := by rw [hb]; try rfl
  have hcp : b.controlPoints = cps := by rw [hb]; try rfl
  have hex : b.extrapolation = e := by rw [hb]; try rfl
  have hkn : Knots b = knots := Knots_expand d.toNat knots b hdeg hek
  have hn : NumControlPoints b = knots.length + d.toNat - 1 :=
    numControlPoints_expand d.toNat knots b hdeg hek
  have heklen : b.expandedKnots.length = knots.length + 2 * d.toNat := by
    rw [hek, expandKnots_length]
  have hcplen : b.controlPoints.length = knots.length + d.toNat - 1 := by
    rw [hcp, hcl]
  have htn : ((b.degree : ℤ) - 1).toNat = d.toNat - 1 := by omega
  rw [Derivative]
  rw [derivControlLoop_ok b _ (by
    intro ii hi
    rw [List.mem_range, hn] at hi
    constructor <;> omega)]
  rw [ok_bind, hkn]
  rw [new_ok ((b.degree : ℤ) - 1) knots h2 hs (by omega) (by rw [htn]; omega)]
  rw [ok_bind, htn]
  rw [withControlPoints_ok (by
    simp only [WithExtrapolation, mkSpline_degree, mkSpline_expandedKnots, List.length_map,
      List.length_range]
    rw [expandKnots_length, hn]
    omega)]
  rw [hex]
  rfl

/-! ### Failure lemmas for `New` and `Derivative` -/

/-- `New` with a negative degree: the two `Panicf` checks pass, then the Go
`copy` with a negative slice bound panics. -/
theorem new_err_neg (d : ℤ) (knots : List ℚ) (h2 : 2 ≤ knots.length)
    (hs : List.Chain' (fun a b => a ≤ b) knots) (hd : d < 0) :
    New d knots = .error .outOfRange := by
  rw [New, if_neg (by omega), if_neg (by simp [(goIsSorted_iff knots).mpr hs]), if_pos hd]

/-- `New` succeeds on the argument checks but panics out of range reading
`controlX[1]` when there would be fewer than 2 control points (degree 0 with
exactly 2 knots). -/
theorem new_err_small (d : ℤ) (knots : List ℚ) (h2 : 2 ≤ knots.length)
    (hs : List.Chain' (fun a b => a ≤ b) knots) (hd : 0 ≤ d)
    (hn : knots.length + d.toNat < 3) :
    New d knots = .error .outOfRange := by
  have hlen : (ControlPointsX (⟨d.toNat, expandKnots d.toNat knots, [], .constant, 0, 0⟩ :
      BSpline)).length = knots.length + d.toNat - 1 := by
    rw [controlPointsX_length, numControlPoints_expand d.toNat knots _ rfl rfl]
  have hle : (ControlPointsX (⟨d.toNat, expandKnots d.toNat knots, [], .constant, 0, 0⟩ :
      BSpline)).length ≤ 1 := by
    rw [hlen]; omega
  rw [New, if_neg (by omega), if_neg (by simp [(goIsSorted_iff knots).mpr hs]), if_neg (by omega)]
  simp only [goGetN_ge _ _ hle, error_bind]

/-- On any constructed spline with control points set, `Derivative` either
succeeds or fails with the out-of-range runtime panic — never with
`invalidState`. -/
theorem derivative_constructed_cases {d : ℤ} {knots cps : List ℚ} {e : ExtrapolationType}
    {b0 b : BSpline}
    (hN : New d knots = .ok b0) (hW : WithControlPoints (WithExtrapolation b0 e) cps = .ok b) :
    (∃ b', Derivative b = .ok b') ∨ Derivative b = .error .outOfRange := by
  by_cases hbig : 1 ≤ d ∧ 4 ≤ knots.length + d.toNat
  · exact Or.inl ⟨_, derivative_ok hN hW hbig.1 hbig.2⟩
  · right
    obtain ⟨hb, hcl, h2, hd0, h3, hs⟩ := constructed_facts hN hW
    have hdeg : b.degree = d.toNat := by rw [hb]; try rfl
    have hek : b.expandedKnots = expandKnots d.toNat knots := by rw [hb]; try rfl
    have hcp : b.controlPoints = cps := by rw [hb]; try rfl
    have hkn : Knots b = knots := Knots_expand d.toNat knots b hdeg hek
    have hn : NumControlPoints b = knots.length + d.toNat - 1 :=
      numControlPoints_expand d.toNat knots b hdeg hek
    have heklen : b.expandedKnots.length = knots.length + 2 * d.toNat := by
      rw [hek, expandKnots_length]
    have hcplen : b.controlPoints.length = knots.length + d.toNat - 1 := by
      rw [hcp, hcl]
    rw [Derivative]
    rw [derivControlLoop_ok b _ (by
      intro ii hi
      rw [List.mem_range, hn] at hi
      constructor <;> omega)]
    rw [ok_bind, hkn]
    by_cases hdz : d.toNat = 0
    · rw [new_err_neg ((b.degree : ℤ) - 1) knots h2 hs (by omega)]
      rfl
    · rw [new_err_small ((b.degree : ℤ) - 1) knots h2 hs (by omega) (by omega)]
      rfl

/-- `Derivative` on a spline fresh out of `New` (control points still unset)
fails with the out-of-range runtime panic. -/
theorem derivative_fresh_out_of_range {d : ℤ} {knots : List ℚ} {b0 : BSpline}
    (hN : New d knots = .ok b0) :
    Derivative b0 = .error .outOfRange := by
  obtain ⟨h2, hs, hd, h3, hb0⟩ := new_ok_inv hN
  subst hb0
  have hn : NumControlPoints (mkSpline d.toNat knots) = knots.length + d.toNat - 1 :=
    numControlPoints_expand d.toNat knots _ rfl rfl
  obtain ⟨k, hk⟩ : ∃ k, NumControlPoints (mkSpline d.toNat knots) - 1 = k + 1 :=
    ⟨NumControlPoints (mkSpline d.toNat knots) - 2, by omega⟩
  rw [Derivative, hk, List.range_succ_eq_map]
  simp only [derivControlLoop, goGetN_ge (mkSpline d.toNat knots).controlPoints 1 (by simp),
    error_bind, List.map_cons]

/-! ### Monotonicity of the expanded knot vector -/

theorem getLast?_eq_getD (l : List ℚ) (h : 1 ≤ l.length) :
    l.getLast? = some (l.getD (l.length - 1) 0) := by
  rw [List.getLast?_eq_getElem?, List.getElem?_eq_getElem (by omega),
    List.getD_eq_getElem _ _ (by omega)]

theorem head?_eq_getD (l : List ℚ) (h : 1 ≤ l.length) :
    l.head? = some (l.getD 0 0) := by
  cases l with
  | nil => simp at h
  | cons a t => rfl

/-- For a non-decreasing knot list, the clamped expansion is non-decreasing. -/
theorem chain'_expandKnots (d : ℕ) (ks : List ℚ) (h1 : 1 ≤ ks.length)
    (hs : List.Chain' (fun a b => a ≤ b) ks) :
    List.Chain' (fun a b => a ≤ b) (expandKnots d ks) := by
  have hne : ks ≠ [] := by
    intro h
    rw [h] at h1
    simp at h1
  unfold expandKnots
  rw [List.append_assoc, List.chain'_append]
  refine ⟨List.chain'_replicate_of_rel d le_rfl, ?_, ?_⟩
  · rw [List.chain'_append]
    refine ⟨hs, List.chain'_replicate_of_rel d le_rfl, ?_⟩
    intro x hx y hy
    rw [getLast?_eq_getD ks h1] at hx
    cases d with
    | zero => simp at hy
    | succ k =>
      rw [List.replicate_succ] at hy
      simp only [List.head?_cons, Option.mem_def, Option.some.injEq] at hx hy
      rw [← hx, ← hy]
  · intro x hx y hy
    rw [List.head?_append_of_ne_nil _ hne, head?_eq_getD ks h1] at hy
    cases d with
    | zero => simp at hx
    | succ k =>
      rw [List.getLast?_replicate] at hx
      simp only [Option.mem_def, Option.some.injEq, if_neg (Nat.succ_ne_zero k)] at hx hy
      rw [← hx, ← hy]

/-! ### The entries of `ControlPointsX` -/

theorem controlPointsX_getD_zero (b : BSpline) (h : 1 ≤ NumControlPoints b) :
    (ControlPointsX b).getD 0 0 = b.expandedKnots.getD 0 0 := by
  unfold ControlPointsX
  rw [getD_map_range _ _ _ (by omega)]
  simp

theorem controlPointsX_getD_pos (b : BSpline) (i : ℕ)
    (h1 : 1 ≤ i) (h2 : i < NumControlPoints b)
    (hne : i ≠ b.expandedKnots.length - 1) :
    (ControlPointsX b).getD i 0 =
      (((List.range b.degree).map fun jj => b.expandedKnots.getD (i + jj + 1) 0).sum)
        / (b.degree : ℚ) := by
  unfold ControlPointsX
  rw [getD_map_range _ _ _ h2, if_neg (by omega), if_neg hne]

/-- On a constructed expanded-knot vector, every control-point index other
than 0 takes the interior (Greville mean) branch: the
`ii = len(expandedKnots)-1` branch of the source is dead there. -/
theorem controlPointsX_constructed_pos (d : ℕ) (knots : List ℚ) (b : BSpline)
    (hdeg : b.degree = d) (hek : b.expandedKnots = expandKnots d knots)
    (hm : 2 ≤ knots.length) (i : ℕ)
    (h1 : 1 ≤ i) (h2 : i < NumControlPoints b) :
    (ControlPointsX b).getD i 0 =
      (((List.range d).map fun jj => b.expandedKnots.getD (i + jj + 1) 0).sum)
        / (d : ℚ) := by
  have hekl : b.expandedKnots.length = knots.length + 2 * d := by
    rw [hek, expandKnots_length]
  have hn := numControlPoints_expand d knots b hdeg hek
  rw [controlPointsX_getD_pos b i h1 h2 (by omega), hdeg]

/-- For degree at least 1, the last `ControlPointsX` entry — although
computed by the interior-mean branch — equals the last expanded knot,
because it averages `degree` copies of the clamped last knot. -/
theorem controlPointsX_constructed_last (d : ℕ) (knots : List ℚ) (b : BSpline)
    (hdeg : b.degree = d) (hek : b.expandedKnots = expandKnots d knots)
    (hm : 2 ≤ knots.length) (hd : 1 ≤ d) :
    (ControlPointsX b).getD (NumControlPoints b - 1) 0 =
      b.expandedKnots.getD (b.expandedKnots.length - 1) 0 := by
  have hekl : b.expandedKnots.length = knots.length + 2 * d := by
    rw [hek, expandKnots_length]
  have hn := numControlPoints_expand d knots b hdeg hek
  have hlast : b.expandedKnots.getD (b.expandedKnots.length - 1) 0 =
      knots.getD (knots.length - 1) 0 := by
    rw [hek, expandKnots_length, expandKnots_getD_hi d knots _ (by omega) (by omega) (by omega)]
  rw [controlPointsX_constructed_pos d knots b hdeg hek hm _ (by omega) (by omega)]
  have hconst : ((List.range d).map fun jj =>
      b.expandedKnots.getD (NumControlPoints b - 1 + jj + 1) 0) =
      List.replicate d (knots.getD (knots.length - 1) 0) := by
    rw [List.eq_replicate_iff]
    refine ⟨by simp, ?_⟩
    intro v hv
    rw [List.mem_map] at hv
    obtain ⟨jj, hjj, hv⟩ := hv
    rw [List.mem_range] at hjj
    rw [← hv, hek, expandKnots_getD_hi d knots _ (by omega) (by omega) (by omega)]
  rw [hconst, hlast, List.sum_replicate, nsmul_eq_mul,
    mul_div_cancel_left₀ _ (show ((d : ℚ)) ≠ 0 from Nat.cast_ne_zero.mpr (by omega))]

/-! ### `NewRegular` -/

theorem newRegular_ok (d n : ℤ) (hd : 0 ≤ d) (hn1 : d + 1 ≤ n) (hn2 : 2 ≤ n) :
    NewRegular d n = .ok (mkSpline d.toNat
      ((List.range (n - d + 1).toNat).map fun ii : ℕ => (ii : ℚ) / (((n - d + 1 - 1 : ℤ) : ℚ)))) ∧
    ∀ b, NewRegular d n = .ok b → (NumControlPoints b : ℤ) = n := by
  have hlen : ((List.range (n - d + 1).toNat).map
      fun ii : ℕ => (ii : ℚ) / (((n - d + 1 - 1 : ℤ) : ℚ))).length = (n - d + 1).toNat := by
    simp
  have hchain : List.Chain' (fun a b => a ≤ b)
      ((List.range (n - d + 1).toNat).map fun ii : ℕ => (ii : ℚ) / (((n - d + 1 - 1 : ℤ) : ℚ))) := by
    rw [List.chain'_map]
    obtain ⟨k, hk⟩ : ∃ k, (n - d + 1).toNat = k + 1 := ⟨(n - d + 1).toNat - 1, by omega⟩
    rw [hk, show k + 1 = Nat.succ k from rfl, List.chain'_range_succ]
    intro m _
    apply div_le_div_of_nonneg_right
    · exact_mod_cast Nat.le_succ m
    · have : (0 : ℤ) ≤ n - d + 1 - 1 := by omega
      exact_mod_cast this
  have hok : NewRegular d n = .ok (mkSpline d.toNat
      ((List.range (n - d + 1).toNat).map fun ii : ℕ => (ii : ℚ) / (((n - d + 1 - 1 : ℤ) : ℚ)))) := by
    rw [NewRegular, if_neg (by omega)]
    exact new_ok d _ (by rw [hlen]; omega) hchain hd (by rw [hlen]; omega)
  refine ⟨hok, ?_⟩
  intro b hb
  rw [hok] at hb
  have hb' := (Except.ok.inj hb).symm
  subst hb'
  rw [numControlPoints_expand d.toNat _ _ rfl rfl, hlen]
  omega

/-! ### Field-level facts and totality for constructed splines -/

theorem constructed_fields {d : ℤ} {knots cps : List ℚ} {e : ExtrapolationType} {b0 b : BSpline}
    (hN : New d knots = .ok b0) (hW : WithControlPoints (WithExtrapolation b0 e) cps = .ok b) :
    b.degree = d.toNat ∧ b.expandedKnots = expandKnots d.toNat knots ∧
    b.controlPoints = cps ∧ b.extrapolation = e ∧
    b.controlPoints.length = knots.length + d.toNat - 1 ∧
    b.expandedKnots.length = knots.length + 2 * d.toNat ∧
    2 ≤ knots.length ∧ 0 ≤ d ∧ 3 ≤ knots.length + d.toNat ∧
    b.knotValueForControlPoint1 = (mkSpline d.toNat knots).knotValueForControlPoint1 ∧
    b.knotValueForControlPointM2 = (mkSpline d.toNat knots).knotValueForControlPointM2 := by
  obtain ⟨hb, hcl, h2, hd0, h3, hs⟩ := constructed_facts hN hW
  have hcp : b.controlPoints = cps := by rw [hb]; try rfl
  have hek : b.expandedKnots = expandKnots d.toNat knots := by rw [hb]; try rfl
  have hdeg : b.degree = d.toNat := by rw [hb]; try rfl
  refine ⟨hdeg, hek, hcp, by rw [hb]; try rfl, by rw [hcp, hcl], by rw [hek, expandKnots_length],
    h2, hd0, h3, by rw [hb]; try rfl, by rw [hb]; try rfl⟩

theorem evaluate_total {d : ℤ} {knots cps : List ℚ} {e : ExtrapolationType} {b0 b : BSpline}
    (hN : New d knots = .ok b0) (hW : WithControlPoints (WithExtrapolation b0 e) cps = .ok b) :
    ∀ x, ∃ y, Evaluate b x = .ok y := by
  obtain ⟨hdeg, hek, hcp, hex, hcplen, heklen, h2, hd0, h3, hkv1, hkvM2⟩ :=
    constructed_fields hN hW
  intro x
  by_cases hlo : x < b.expandedKnots.getD 0 0
  · rw [evaluate_out b x (by omega) (by omega) (Or.inl hlo),
      extrapolate_ok b x (by omega) (by omega)]
    exact ⟨_, rfl⟩
  · by_cases hhi : x < b.expandedKnots.getD (b.expandedKnots.length - 1) 0
    · exact ⟨_, evaluate_in_domain b x (by omega) (by omega) (not_lt.mp hlo) hhi⟩
    · rw [evaluate_out b x (by omega) (by omega) (Or.inr (not_lt.mp hhi)),
        extrapolate_ok b x (by omega) (by omega)]
      exact ⟨_, rfl⟩

/-! ### The claims

The concrete witnesses below evaluate the embedded code on small inputs, so
the rational-arithmetic operations must be unfolded by the elaborator (they
are `@[irreducible]` upstream purely as a simp-performance guard). -/

attribute [local semireducible] Rat.mul Rat.add Rat.sub Rat.inv



/-- Claim C1: `BasisFunction(i, p, x)` implements the Cox-de Boor recursion
over the expanded knot vector `t` exactly as specified — base case
`t[i] ≤ x < t[i+1]` for `p = 0`, and for `p > 0` the sum `left + right`
where each side is `0` unless its knot-difference guard `t[i+p] ≠ t[i]`
(resp. `t[i+p+1] ≠ t[i+1]`) holds, so repeated (clamped) knot values
contribute zero rather than a division by zero.  `coxDeBoorSpec` is that
recursion written verbatim from the specification; the code's checked
`BasisFunction` computes it whenever the knot indices it touches are in
bounds. -/
theorem C1_basisFunction_is_cox_de_boor (b : BSpline) (i p : ℕ) (x : ℚ)
    (h : i + p + 1 < b.expandedKnots.length) :
    BasisFunction b i p x = .ok (coxDeBoorSpec b.expandedKnots i p x) :=
  basisFunction_ok b p i x h

/-- Witness for C1 at degree 1 over the clamped knots `[0,0,1,2,2]`. -/
theorem C1_witness :
    (0 : ℕ) + 1 + 1 < (([0, 0, 1, 2, 2] : List ℚ)).length ∧
    BasisFunction ⟨1, [0, 0, 1, 2, 2], [], .constant, 1, 1⟩ 0 1 (1/2) =
      .ok (coxDeBoorSpec [0, 0, 1, 2, 2] 0 1 (1/2)) :=
  ⟨by decide,
    C1_basisFunction_is_cox_de_boor ⟨1, [0, 0, 1, 2, 2], [], .constant, 1, 1⟩ 0 1 (1/2)
      (by decide)⟩

/-- Claim C2: for every spline with control points set (built by
`New(d, knots).WithExtrapolation(e).WithControlPoints(cps)`), `Evaluate x`
returns the weighted sum `Σ controlPoints[i] * BasisFunction(i, degree, x)`
whenever `expandedKnots[0] ≤ x < expandedKnots[last]`, and delegates to the
extrapolation policy for every other `x`; in particular `x` exactly equal to
the last expanded knot is treated as outside the domain and extrapolated. -/
theorem C2_evaluate_sum_or_extrapolate (d : ℤ) (knots cps : List ℚ) (e : ExtrapolationType)
    (b0 b : BSpline)
    (hN : New d knots = .ok b0)
    (hW : WithControlPoints (WithExtrapolation b0 e) cps = .ok b) :
    (∀ x, b.expandedKnots.getD 0 0 ≤ x →
      x < b.expandedKnots.getD (b.expandedKnots.length - 1) 0 →
      Evaluate b x = .ok (weightedSumSpec b x)) ∧
    (∀ x, (x < b.expandedKnots.getD 0 0 ∨
      b.expandedKnots.getD (b.expandedKnots.length - 1) 0 ≤ x) →
      Evaluate b x = extrapolate b x) ∧
    Evaluate b (b.expandedKnots.getD (b.expandedKnots.length - 1) 0) =
      extrapolate b (b.expandedKnots.getD (b.expandedKnots.length - 1) 0) := by
  obtain ⟨hdeg, hek, hcp, hex, hcplen, heklen, h2, hd0, h3, hkv1, hkvM2⟩ :=
    constructed_fields hN hW
  refine ⟨?_, ?_, ?_⟩
  · intro x hlo hhi
    exact evaluate_in_domain b x (by omega) (by omega) hlo hhi
  · intro x hout
    exact evaluate_out b x (by omega) (by omega) hout
  · exact evaluate_out b _ (by omega) (by omega) (Or.inr le_rfl)

/-- Witness for C2: a degree-1 spline over knots `[0,1,2]` with control
points `[1,2,3]`, evaluated inside the domain at `1/2` and outside at `5`. -/
theorem C2_witness :
    Evaluate ⟨1, [0, 0, 1, 2, 2], [1, 2, 3], .constant, 1, 1⟩ (1/2) =
      .ok (weightedSumSpec ⟨1, [0, 0, 1, 2, 2], [1, 2, 3], .constant, 1, 1⟩ (1/2)) ∧
    Evaluate ⟨1, [0, 0, 1, 2, 2], [1, 2, 3], .constant, 1, 1⟩ 5 =
      extrapolate ⟨1, [0, 0, 1, 2, 2], [1, 2, 3], .constant, 1, 1⟩ 5 := by
  have h := C2_evaluate_sum_or_extrapolate 1 [0, 1, 2] [1, 2, 3] .constant
    ⟨1, [0, 0, 1, 2, 2], [], .constant, 1, 1⟩
    ⟨1, [0, 0, 1, 2, 2], [1, 2, 3], .constant, 1, 1⟩ rfl rfl
  exact ⟨h.1 (1/2) (by decide) (by decide), h.2.1 5 (by decide)⟩

/-- Claim C3: for every constructed spline with control points set and every
`x` outside `[expandedKnots[0], expandedKnots[last])`, `Evaluate` returns
exactly the mode-specific value of `extrapolateSpec` (spelled from the
specification: Zero returns `0`; Constant returns the first/last control
point; Linear returns the tangent through the first/last two control points
with the slopes built from the two cached `xOfControlPoint*` scalars), and
those two cached scalars are the ones `ControlPointsX` produces at
construction (index 1 and index `length - 2`). -/
theorem C3_extrapolation_values (d : ℤ) (knots cps : List ℚ) (e : ExtrapolationType)
    (b0 b : BSpline)
    (hN : New d knots = .ok b0)
    (hW : WithControlPoints (WithExtrapolation b0 e) cps = .ok b) :
    (∀ x, (x < b.expandedKnots.getD 0 0 ∨
      b.expandedKnots.getD (b.expandedKnots.length - 1) 0 ≤ x) →
      Evaluate b x = .ok (extrapolateSpec b x)) ∧
    b.knotValueForControlPoint1 = (ControlPointsX b).getD 1 0 ∧
    b.knotValueForControlPointM2 =
      (ControlPointsX b).getD ((ControlPointsX b).length - 2) 0 := by
  obtain ⟨hdeg, hek, hcp, hex, hcplen, heklen, h2, hd0, h3, hkv1, hkvM2⟩ :=
    constructed_fields hN hW
  have hcx : ControlPointsX b = ControlPointsX (mkSpline d.toNat knots) :=
    controlPointsX_congr b (mkSpline d.toNat knots) (by rw [hdeg]; rfl) (by rw [hek]; rfl)
  refine ⟨?_, ?_, ?_⟩
  · intro x hout
    rw [evaluate_out b x (by omega) (by omega) hout,
      extrapolate_ok b x (by omega) (by omega)]
  · rw [hkv1, mkSpline_kv1, hcx]
  · rw [hkvM2, mkSpline_kvM2, hcx]

/-- Witness for C3: a degree-1 spline over knots `[0,1,2]` in Linear mode,
extrapolated below the domain at `-1`. -/
theorem C3_witness :
    Evaluate ⟨1, [0, 0, 1, 2, 2], [1, 2, 3], .linear, 1, 1⟩ (-1) =
      .ok (extrapolateSpec ⟨1, [0, 0, 1, 2, 2], [1, 2, 3], .linear, 1, 1⟩ (-1)) ∧
    (⟨1, [0, 0, 1, 2, 2], [1, 2, 3], .linear, 1, 1⟩ : BSpline).knotValueForControlPoint1 =
      (ControlPointsX ⟨1, [0, 0, 1, 2, 2], [1, 2, 3], .linear, 1, 1⟩).getD 1 0 := by
  have h := C3_extrapolation_values 1 [0, 1, 2] [1, 2, 3] .linear
    ⟨1, [0, 0, 1, 2, 2], [], .constant, 1, 1⟩
    ⟨1, [0, 0, 1, 2, 2], [1, 2, 3], .linear, 1, 1⟩ rfl rfl
  exact ⟨h.1 (-1) (Or.inl (by decide)), h.2.1⟩

/-- Counterexample to claim C4 as stated: a valid degree-1 spline over two
knots, with its two control points set, on which `Derivative()` does not
return a new spline but panics out of range (the inner `New(0, knots)` call
reads `controlX[1]` of a 1-element list). -/
theorem C4_counterexample :
    New 1 [(0:ℚ), 1] = .ok ⟨1, [0, 0, 1, 1], [], .constant, 1, 0⟩ ∧
    WithControlPoints (WithExtrapolation ⟨1, [0, 0, 1, 1], [], .constant, 1, 0⟩ .constant)
      [5, 7] = .ok ⟨1, [0, 0, 1, 1], [5, 7], .constant, 1, 0⟩ ∧
    Derivative ⟨1, [0, 0, 1, 1], [5, 7], .constant, 1, 0⟩ = .error .outOfRange :=
  ⟨rfl, rfl, rfl⟩

/-- Claim C4 (amended: requires degree ≥ 1 and at least 3 control points,
i.e. `len(knots) + degree ≥ 4`; otherwise the call panics, see the
counterexample): `Derivative()` returns a new spline over the same original
(unexpanded) knots with degree one less, whose control points satisfy
`new[i] = degree * (controlPoints[i+1] - controlPoints[i]) /
(expandedKnots[i+1+degree] - expandedKnots[i+1])`, and whose extrapolation
mode is Zero when the original was Zero or Constant and Constant when the
original was Linear.  The embedding is purely functional, so the original
spline value `b` is untouched by construction — `Derivative` only reads
it. -/
theorem C4_derivative (d : ℤ) (knots cps : List ℚ) (e : ExtrapolationType) (b0 b : BSpline)
    (hN : New d knots = .ok b0)
    (hW : WithControlPoints (WithExtrapolation b0 e) cps = .ok b)
    (hd1 : 1 ≤ d) (hm : 4 ≤ knots.length + d.toNat) :
    ∃ b', Derivative b = .ok b' ∧
      b'.degree + 1 = b.degree ∧
      Knots b' = Knots b ∧
      b'.controlPoints = derivControlSpec b ∧
      (∀ i, i < NumControlPoints b - 1 → b'.controlPoints.getD i 0 =
        (b.degree : ℚ) * (b.controlPoints.getD (i + 1) 0 - b.controlPoints.getD i 0) /
          (b.expandedKnots.getD (i + 1 + b.degree) 0 - b.expandedKnots.getD (i + 1) 0)) ∧
      b'.extrapolation = derivedExtrapolation b.extrapolation ∧
      ((b.extrapolation = .zero ∨ b.extrapolation = .constant) → b'.extrapolation = .zero) ∧
      (b.extrapolation = .linear → b'.extrapolation = .constant) := by
  obtain ⟨hdeg, hek, hcp, hex, hcplen, heklen, h2, hd0, h3, hkv1, hkvM2⟩ :=
    constructed_fields hN hW
  refine ⟨_, derivative_ok hN hW hd1 hm, ?_, ?_, rfl, ?_, ?_, ?_, ?_⟩
  · show d.toNat - 1 + 1 = b.degree
    omega
  · rw [Knots_expand (d.toNat - 1) knots _ rfl rfl, Knots_expand d.toNat knots b hdeg hek]
  · intro i hi
    show (derivControlSpec b).getD i 0 = _
    unfold derivControlSpec
    rw [getD_map_range _ _ _ hi]
  · show derivedExtrapolation e = derivedExtrapolation b.extrapolation
    rw [hex]
  · intro hcase
    show derivedExtrapolation e = .zero
    rw [← hex]
    rcases hcase with h | h <;> rw [h] <;> rfl
  · intro hcase
    show derivedExtrapolation e = .constant
    rw [← hex, hcase]
    rfl

/-- Witness for the amended C4: the derivative of a degree-2 spline over
knots `[0,1,2]` with control points `[0,1,2,3]` in Linear mode. -/
theorem C4_witness :
    ∃ b', Derivative ⟨2, [0, 0, 0, 1, 2, 2, 2], [0, 1, 2, 3], .linear, 1/2, 3/2⟩ = .ok b' ∧
      b'.degree + 1 = (⟨2, [0, 0, 0, 1, 2, 2, 2], [0, 1, 2, 3], .linear, 1/2, 3/2⟩ :
        BSpline).degree ∧
      Knots b' = Knots ⟨2, [0, 0, 0, 1, 2, 2, 2], [0, 1, 2, 3], .linear, 1/2, 3/2⟩ ∧
      b'.controlPoints =
        derivControlSpec ⟨2, [0, 0, 0, 1, 2, 2, 2], [0, 1, 2, 3], .linear, 1/2, 3/2⟩ ∧
      (∀ i, i < NumControlPoints ⟨2, [0, 0, 0, 1, 2, 2, 2], [0, 1, 2, 3], .linear, 1/2, 3/2⟩
          - 1 →
        b'.controlPoints.getD i 0 =
        ((⟨2, [0, 0, 0, 1, 2, 2, 2], [0, 1, 2, 3], .linear, 1/2, 3/2⟩ : BSpline).degree : ℚ) *
          ((⟨2, [0, 0, 0, 1, 2, 2, 2], [0, 1, 2, 3], .linear, 1/2, 3/2⟩ :
            BSpline).controlPoints.getD (i + 1) 0 -
           (⟨2, [0, 0, 0, 1, 2, 2, 2], [0, 1, 2, 3], .linear, 1/2, 3/2⟩ :
            BSpline).controlPoints.getD i 0) /
          ((⟨2, [0, 0, 0, 1, 2, 2, 2], [0, 1, 2, 3], .linear, 1/2, 3/2⟩ :
            BSpline).expandedKnots.getD (i + 1 + 2) 0 -
           (⟨2, [0, 0, 0, 1, 2, 2, 2], [0, 1, 2, 3], .linear, 1/2, 3/2⟩ :
            BSpline).expandedKnots.getD (i + 1) 0)) ∧
      b'.extrapolation = derivedExtrapolation .linear ∧
      ((ExtrapolationType.linear = .zero ∨ ExtrapolationType.linear = .constant) →
        b'.extrapolation = .zero) ∧
      (ExtrapolationType.linear = .linear → b'.extrapolation = .constant) :=
  C4_derivative 2 [0, 1, 2] [0, 1, 2, 3] .linear
    ⟨2, [0, 0, 0, 1, 2, 2, 2], [], .constant, 1/2, 3/2⟩
    ⟨2, [0, 0, 0, 1, 2, 2, 2], [0, 1, 2, 3], .linear, 1/2, 3/2⟩
    rfl rfl (by decide) (by decide)

/-- Counterexample to claim C5 as stated: for degree 0 with the strictly
increasing 2-knot list `[0,1]`, `New` does not build a spline at all — it
panics out of range reading `controlX[1]` (there is only 1 control point). -/
theorem C5_counterexample :
    List.Chain' (fun a b : ℚ => a < b) [(0:ℚ), 1] ∧
    New 0 [(0:ℚ), 1] = .error .outOfRange := by
  constructor
  · simp only [List.chain'_cons, List.chain'_singleton, and_true]
    decide
  · rfl

/-- Claim C5 (amended: additionally requires at least 2 control points,
`len(knots) + degree ≥ 3` — the single excluded case is degree 0 with
exactly 2 knots, where `New` panics; see the counterexample): `New(d, knots)`
builds an expanded knot vector of length `len(knots) + 2*d` whose first `d`
slots equal `knots[0]`, whose last `d` slots equal `knots[last]`, whose
middle is a copy of the original knots (so the expansion is non-decreasing
everywhere, and strictly increasing across the original interior, which is
the hypothesis `hs` itself), and the resulting spline's default
extrapolation mode is Constant. -/
theorem C5_new_expansion (d : ℤ) (knots : List ℚ)
    (hd : 0 ≤ d) (hlen : 2 ≤ knots.length)
    (hs : List.Chain' (fun a b : ℚ => a < b) knots)
    (hn : 3 ≤ knots.length + d.toNat) :
    ∃ b, New d knots = .ok b ∧
      b.expandedKnots.length = knots.length + 2 * d.toNat ∧
      (∀ i, i < d.toNat → b.expandedKnots.getD i 0 = knots.getD 0 0) ∧
      (∀ i, i < d.toNat →
        b.expandedKnots.getD (b.expandedKnots.length - 1 - i) 0 =
          knots.getD (knots.length - 1) 0) ∧
      b.expandedKnots = List.replicate d.toNat (knots.getD 0 0) ++ knots ++
        List.replicate d.toNat (knots.getD (knots.length - 1) 0) ∧
      List.Chain' (fun a b => a ≤ b) b.expandedKnots ∧
      Knots b = knots ∧
      b.extrapolation = .constant := by
  have hle : List.Chain' (fun a b : ℚ => a ≤ b) knots :=
    hs.imp fun a b h => le_of_lt h
  refine ⟨mkSpline d.toNat knots, new_ok d knots hlen hle hd hn, ?_, ?_, ?_, rfl, ?_,
    Knots_expand d.toNat knots _ rfl rfl, rfl⟩
  · rw [mkSpline_expandedKnots, expandKnots_length]
  · intro i hi
    rw [mkSpline_expandedKnots]
    exact expandKnots_getD_lo d.toNat knots i hi
  · intro i hi
    rw [mkSpline_expandedKnots, expandKnots_length,
      expandKnots_getD_hi d.toNat knots _ (by omega) (by omega) (by omega)]
  · rw [mkSpline_expandedKnots]
    exact chain'_expandKnots d.toNat knots (by omega) hle

/-- Witness for the amended C5 at degree 1 over knots `[0,1,2]`. -/
theorem C5_witness :
    ∃ b, New 1 [(0:ℚ), 1, 2] = .ok b ∧
      b.expandedKnots.length = ([(0:ℚ), 1, 2]).length + 2 * (1:ℤ).toNat ∧
      (∀ i, i < (1:ℤ).toNat → b.expandedKnots.getD i 0 = ([(0:ℚ), 1, 2]).getD 0 0) ∧
      (∀ i, i < (1:ℤ).toNat →
        b.expandedKnots.getD (b.expandedKnots.length - 1 - i) 0 =
          ([(0:ℚ), 1, 2]).getD (([(0:ℚ), 1, 2]).length - 1) 0) ∧
      b.expandedKnots = List.replicate (1:ℤ).toNat (([(0:ℚ), 1, 2]).getD 0 0) ++
        [(0:ℚ), 1, 2] ++
        List.replicate (1:ℤ).toNat (([(0:ℚ), 1, 2]).getD (([(0:ℚ), 1, 2]).length - 1) 0) ∧
      List.Chain' (fun a b => a ≤ b) b.expandedKnots ∧
      Knots b = [(0:ℚ), 1, 2] ∧
      b.extrapolation = .constant :=
  C5_new_expansion 1 [0, 1, 2] (by decide) (by decide)
    (by simp only [List.chain'_cons, List.chain'_singleton, and_true]; decide) (by decide)

/-- Claim C6 is a code bug: the comparator passed to `slices.IsSortedFunc`
returns `1` on equal adjacent values, which `IsSortedFunc` does not treat as
out of order, so — despite the source comment "We want repeated numbers to
fail" and the panic message "requires knots to be strictly increasing (no
repeats)" — `New` ACCEPTS the repeated-knot list `[0,0,1]` instead of
failing with `InvalidArgument`. -/
theorem C6_new_accepts_repeated_knots :
    ¬ List.Chain' (fun a b : ℚ => a < b) [(0:ℚ), 0, 1] ∧
    New 1 [(0:ℚ), 0, 1] = .ok ⟨1, [0, 0, 0, 1, 1], [], .constant, 0, 0⟩ := by
  constructor
  · simp only [List.chain'_cons, List.chain'_singleton, and_true]
    decide
  · rfl

/-- Counterexample to claim C7 as stated: on a freshly constructed spline
with control points still unset, `Derivative` fails with the OUT-OF-RANGE
runtime panic (reading `control[1]` of the nil slice), not with
`InvalidState` — the source has no control-points check in `Derivative`. -/
theorem C7_counterexample :
    New 1 [(0:ℚ), 1, 2] = .ok ⟨1, [0, 0, 1, 2, 2], [], .constant, 1, 1⟩ ∧
    Derivative ⟨1, [0, 0, 1, 2, 2], [], .constant, 1, 1⟩ = .error .outOfRange ∧
    (Except.error Err.outOfRange : Except Err BSpline) ≠ .error .invalidState :=
  ⟨rfl, rfl, fun h => Err.noConfusion (Except.error.inj h)⟩

/-- Claim C7 (amended: `Evaluate` fails with `InvalidState`, detected
eagerly at the start of the call, when control points are unset; `Derivative`
also fails before control points are set, but with an out-of-range runtime
panic rather than `InvalidState`; and once control points of the required
length are set, neither call fails with `InvalidState`). -/
theorem C7_invalid_state (d : ℤ) (knots cps : List ℚ) (e : ExtrapolationType)
    (b0 b : BSpline) (x : ℚ)
    (hN : New d knots = .ok b0)
    (hW : WithControlPoints (WithExtrapolation b0 e) cps = .ok b) :
    Evaluate b0 x = .error .invalidState ∧
    Derivative b0 = .error .outOfRange ∧
    Evaluate b x ≠ .error .invalidState ∧
    Derivative b ≠ .error .invalidState := by
  obtain ⟨h2, hs, hd, h3, hb0⟩ := new_ok_inv hN
  refine ⟨?_, derivative_fresh_out_of_range hN, ?_, ?_⟩
  · rw [Evaluate, if_pos (by rw [hb0]; rfl)]
  · obtain ⟨y, hy⟩ := evaluate_total hN hW x
    rw [hy]
    intro hcon
    exact Except.noConfusion hcon
  · rcases derivative_constructed_cases hN hW with ⟨b', hb'⟩ | hb'
    · rw [hb']
      intro hcon
      exact Except.noConfusion hcon
    · rw [hb']
      intro hcon
      exact Err.noConfusion (Except.error.inj hcon)

/-- Witness for the amended C7: a degree-1 spline over `[0,1,2]`, before and
after setting its three control points. -/
theorem C7_witness :
    Evaluate ⟨1, [0, 0, 1, 2, 2], [], .constant, 1, 1⟩ 0 = .error .invalidState ∧
    Derivative ⟨1, [0, 0, 1, 2, 2], [], .constant, 1, 1⟩ = .error .outOfRange ∧
    Evaluate ⟨1, [0, 0, 1, 2, 2], [1, 2, 3], .constant, 1, 1⟩ 0 ≠ .error .invalidState ∧
    Derivative ⟨1, [0, 0, 1, 2, 2], [1, 2, 3], .constant, 1, 1⟩ ≠ .error .invalidState :=
  C7_invalid_state 1 [0, 1, 2] [1, 2, 3] .constant
    ⟨1, [0, 0, 1, 2, 2], [], .constant, 1, 1⟩
    ⟨1, [0, 0, 1, 2, 2], [1, 2, 3], .constant, 1, 1⟩ 0 rfl rfl

/-- Counterexample to claim C8 as stated: for a constructed degree-0 spline
over `[0,1,2]`, the LAST entry of `ControlPointsX` is 0, not the last
expanded knot 2 — the `ii == len(expandedKnots)-1` branch of the source
never fires for the last control point, and the degree-0 mean divides by
zero (`NaN` in Go, `0` in this embedding). -/
theorem C8_counterexample :
    New 0 [(0:ℚ), 1, 2] = .ok ⟨0, [0, 1, 2], [], .constant, 0, 0⟩ ∧
    ControlPointsX ⟨0, [0, 1, 2], [], .constant, 0, 0⟩ = [0, 0] ∧
    NumControlPoints ⟨0, [0, 1, 2], [], .constant, 0, 0⟩ = 2 ∧
    (0 : ℚ) ≠ ([(0:ℚ), 1, 2]).getD 2 0 :=
  ⟨rfl, rfl, rfl, by decide⟩

/-- Claim C8 (amended: requires degree ≥ 1; at degree 0 the last entry is a
0/0, see the counterexample): `ControlPointsX()` returns one value per
control point; the first entry is `expandedKnots[0]`, the last entry equals
`expandedKnots[last]` (via the mean of `degree` copies of the clamped last
knot), and every other entry `i` is the mean
`(Σ_{j<degree} expandedKnots[i+1+j]) / degree`. -/
theorem C8_controlPointsX (d : ℤ) (knots : List ℚ) (b : BSpline)
    (hN : New d knots = .ok b) (hd : 1 ≤ d) :
    (ControlPointsX b).length = NumControlPoints b ∧
    (ControlPointsX b).getD 0 0 = b.expandedKnots.getD 0 0 ∧
    (ControlPointsX b).getD (NumControlPoints b - 1) 0 =
      b.expandedKnots.getD (b.expandedKnots.length - 1) 0 ∧
    ∀ i, 1 ≤ i → i < NumControlPoints b →
      (ControlPointsX b).getD i 0 =
        (((List.range b.degree).map fun jj => b.expandedKnots.getD (i + jj + 1) 0).sum)
          / (b.degree : ℚ) := by
  obtain ⟨h2, hs, hd0, h3, hb⟩ := new_ok_inv hN
  subst hb
  have hdt : 1 ≤ d.toNat := by omega
  refine ⟨controlPointsX_length _, ?_, ?_, ?_⟩
  · apply controlPointsX_getD_zero
    rw [numControlPoints_expand d.toNat knots _ rfl rfl]
    omega
  · exact controlPointsX_constructed_last d.toNat knots _ rfl rfl h2 hdt
  · intro i h1i h2i
    exact controlPointsX_constructed_pos d.toNat knots _ rfl rfl h2 i h1i h2i

/-- Witness for the amended C8: the degree-2 spline over knots `[0,1,2]`. -/
theorem C8_witness :
    (ControlPointsX ⟨2, [0, 0, 0, 1, 2, 2, 2], [], .constant, 1/2, 3/2⟩).length =
      NumControlPoints ⟨2, [0, 0, 0, 1, 2, 2, 2], [], .constant, 1/2, 3/2⟩ ∧
    (ControlPointsX ⟨2, [0, 0, 0, 1, 2, 2, 2], [], .constant, 1/2, 3/2⟩).getD 0 0 =
      (⟨2, [0, 0, 0, 1, 2, 2, 2], [], .constant, 1/2, 3/2⟩ :
        BSpline).expandedKnots.getD 0 0 ∧
    (ControlPointsX ⟨2, [0, 0, 0, 1, 2, 2, 2], [], .constant, 1/2, 3/2⟩).getD
        (NumControlPoints ⟨2, [0, 0, 0, 1, 2, 2, 2], [], .constant, 1/2, 3/2⟩ - 1) 0 =
      (⟨2, [0, 0, 0, 1, 2, 2, 2], [], .constant, 1/2, 3/2⟩ :
        BSpline).expandedKnots.getD
        ((⟨2, [0, 0, 0, 1, 2, 2, 2], [], .constant, 1/2, 3/2⟩ :
          BSpline).expandedKnots.length - 1) 0 ∧
    ∀ i, 1 ≤ i →
      i < NumControlPoints ⟨2, [0, 0, 0, 1, 2, 2, 2], [], .constant, 1/2, 3/2⟩ →
      (ControlPointsX ⟨2, [0, 0, 0, 1, 2, 2, 2], [], .constant, 1/2, 3/2⟩).getD i 0 =
        (((List.range (⟨2, [0, 0, 0, 1, 2, 2, 2], [], .constant, 1/2, 3/2⟩ :
            BSpline).degree).map fun jj =>
          (⟨2, [0, 0, 0, 1, 2, 2, 2], [], .constant, 1/2, 3/2⟩ :
            BSpline).expandedKnots.getD (i + jj + 1) 0).sum) /
          ((⟨2, [0, 0, 0, 1, 2, 2, 2], [], .constant, 1/2, 3/2⟩ : BSpline).degree : ℚ) :=
  C8_controlPointsX 2 [0, 1, 2] ⟨2, [0, 0, 0, 1, 2, 2, 2], [], .constant, 1/2, 3/2⟩
    rfl (by decide)

/-- Counterexample to claim C9 as stated: `NewRegular(0, 1)` satisfies
`numControlPoints ≥ degree + 1` but panics out of range (it builds 2 knots
and delegates to `New(0, [0,1])`, which reads `controlX[1]` of a 1-element
list) instead of succeeding. -/
theorem C9_counterexample :
    (0 : ℤ) + 1 ≤ 1 ∧ NewRegular 0 1 = .error .outOfRange :=
  ⟨by decide, rfl⟩

/-- Claim C9 (amended: additionally requires `numControlPoints ≥ 2` — the
single excluded pair is `(degree, numControlPoints) = (0, 1)`, see the
counterexample): for `d ≥ 0` and `n ≥ d + 1`, `NewRegular(d, n)` succeeds —
building `n - d + 1` evenly spaced knots over `[0,1]` and delegating to
`New` — and the resulting spline satisfies `NumControlPoints() = n`. -/
theorem C9_newRegular_roundtrip (d n : ℤ) (hd : 0 ≤ d) (hn1 : d + 1 ≤ n) (hn2 : 2 ≤ n) :
    ∃ b, NewRegular d n = .ok b ∧ (NumControlPoints b : ℤ) = n := by
  obtain ⟨hok, hnum⟩ := newRegular_ok d n hd hn1 hn2
  exact ⟨_, hok, hnum _ hok⟩

/-- Witness for the amended C9 at degree 2 with 4 control points. -/
theorem C9_witness :
    ∃ b, NewRegular 2 4 = .ok b ∧ (NumControlPoints b : ℤ) = 4 :=
  C9_newRegular_roundtrip 2 4 (by decide) (by decide) (by decide)

/-- Claim C10: for every spline successfully constructed by `New` (with any
extrapolation mode) whose control points were set by a successful
`WithControlPoints` call, `Evaluate` is total: every knot and control-point
access performed by `BasisFunction`, by the summation loop, and by the Zero /
Constant / Linear extrapolation branches (including the end-relative `-1` and
`-2` accesses) is in bounds, so the call returns a value and never panics —
in the embedding, it always returns `.ok`. -/
theorem C10_evaluate_total (d : ℤ) (knots cps : List ℚ) (e : ExtrapolationType)
    (b0 b : BSpline)
    (hN : New d knots = .ok b0)
    (hW : WithControlPoints (WithExtrapolation b0 e) cps = .ok b) :
    ∀ x, ∃ y, Evaluate b x = .ok y :=
  evaluate_total hN hW

/-- Witness for C10: a Linear-mode spline evaluated outside the domain,
exercising the end-relative extrapolation accesses. -/
theorem C10_witness :
    ∃ y, Evaluate ⟨1, [0, 0, 1, 2, 2], [1, 2, 3], .linear, 1, 1⟩ 7 = .ok y :=
  C10_evaluate_total 1 [0, 1, 2] [1, 2, 3] .linear
    ⟨1, [0, 0, 1, 2, 2], [], .constant, 1, 1⟩
    ⟨1, [0, 0, 1, 2, 2], [1, 2, 3], .linear, 1, 1⟩ rfl rfl 7

end BSplines
